import Mathlib

/-!
# WrangleBot API client: connection lifecycle, subscription router, request facade

A shallow embedding of `src/src/Client.js`, `src/src/User.js` and
`src/src/Betweeny.js`.

Conventions of the embedding.

* JavaScript values that the code only tests for truthiness or compares with
  `===` are values of `JSVal`.  Numbers are integers plus `NaN`; objects carry a
  flat list of integer fields, enough to tell them apart.
* A callback handed to `subscribe` is an identifier.  What the callbacks do
  when called is a parameter, `Callbacks`: a callback may change the client
  (subscribe, unsubscribe) and may throw.  `listenerWith` and `dispatchWith`
  are the listener and the dispatcher loop over such callbacks; `listener`,
  `dispatch`, `Client.deliveries` and `Client.onSubscription` are the same code
  for callbacks that return and leave the client alone.
* Promises are settle-once cells (`Settled`).  A `then`/`catch` continuation of
  a promise runs together with the step that settles it.
* The credential store (`localforage`) always succeeds and answers before the
  next event is handled.
-/

namespace WrangleBot

/-! ## JavaScript values -/

/-- A JavaScript value, as far as the client inspects it. -/
inductive JSVal where
  | undefined
  | null
  | bool (b : Bool)
  | num (n : Int)
  | nan
  | str (s : String)
  | obj (fields : List (String × Int))
  deriving DecidableEq, Repr

/-- JavaScript truthiness (`if (v)`, `v ? a : b`, `v || w`, `!v`). -/
def JSVal.truthy : JSVal → Bool
  | .undefined => false
  | .null => false
  | .bool b => b
  | .num n => n != 0
  | .nan => false
  | .str s => s != ""
  | .obj _ => true

/-- The JavaScript expression `a || b`. -/
def JSVal.or (a b : JSVal) : JSVal :=
  if a.truthy then a else b

/-! ## Betweeny.js -/

/-- The class `Betweeny`: an address and a data payload. -/
structure Betweeny (α : Type) where
  address : JSVal
  data : α
  deriving DecidableEq, Repr

/-- The plain record `{address, data}` produced by `toJSON`. -/
structure BetweenyJSON (α : Type) where
  address : JSVal
  data : α
  deriving DecidableEq, Repr

/-- Constructor `constructor(address = null, data)`: the default applies when
the argument is `undefined`. -/
def Betweeny.new {α : Type} (address : JSVal) (data : α) : Betweeny α :=
  { address := if address = JSVal.undefined then JSVal.null else address, data := data }

/-- Method `toJSON()`. -/
def Betweeny.toJSON {α : Type} (b : Betweeny α) : BetweenyJSON α :=
  { address := b.address, data := b.data }

/-! ## User.js -/

/-- The options object given to `new User(options)` and `update(options)`.
An absent field is `undefined`; `roles`/`libraries` are an array or absent. -/
structure UserOptions where
  username : JSVal
  email : JSVal
  firstName : JSVal
  lastName : JSVal
  roles : Option (List String)
  libraries : Option (List String)
  deriving DecidableEq, Repr

/-- The class `User`. -/
structure User where
  username : JSVal
  firstName : JSVal
  lastName : JSVal
  email : JSVal
  roles : List String
  libraries : List String
  deriving DecidableEq, Repr

/-- Field initialisers of the class `User`. -/
def User.blank : User :=
  { username := .undefined, firstName := .undefined, lastName := .undefined,
    email := .undefined, roles := [], libraries := [] }

/-- Method `update(options)`. -/
def User.update (u : User) (options : UserOptions) : User :=
  { username := options.username.or u.username
    email := options.email
    firstName := options.firstName
    lastName := options.lastName
    roles := options.roles.getD []
    libraries := options.libraries.getD [] }

/-- Constructor `new User(options)`; `none` when it throws
"Username is required". -/
def User.new (options : UserOptions) : Option User :=
  if !options.username.truthy then none else some (User.blank.update options)

/-- Method `hasRole(role)`. -/
def User.hasRole (u : User) (role : String) : Bool :=
  u.roles.contains role

/-- Method `hasLibrary(library)`. -/
def User.hasLibrary (u : User) (library : String) : Bool :=
  u.libraries.contains library

/-! ## Subscription router: records, listeners, dispatch -/

/-- The `data` object of an inbound `subscription` payload. -/
structure SubscriptionData where
  event : JSVal
  id : JSVal
  data : JSVal
  deriving DecidableEq, Repr

/-- An inbound `subscription` payload `{status, data: {event, id, data}}`.
`data = none` stands for a payload whose `data` is `null` or `undefined`. -/
structure SubscriptionPayload where
  status : JSVal
  data : Option SubscriptionData
  deriving DecidableEq, Repr

/-- A record pushed by `subscribe`: `{event, id, listener}`.  The listener is
the closure over `event`, `id` and `callback`, so the record keeps the
callback. -/
structure Subscription where
  event : String
  id : String
  callback : Nat
  deriving DecidableEq, Repr

/-- One call `callback(arg)`. -/
structure Invocation where
  callback : Nat
  arg : JSVal
  deriving DecidableEq, Repr

/-- What a piece of synchronous code did: it returned, or it threw a
`TypeError` on a property read of `null`/`undefined`. -/
inductive Completion where
  | returned
  | threw
  deriving DecidableEq, Repr

/-- The closure `listener` built in `subscribe`:
```
if (betweeny.status === 200 && betweeny.data.event === event && betweeny.data.id === id)
  callback(betweeny.data.data ? betweeny.data.data : null);
```
Returns the calls made and how the closure completed, for a callback that
returns and leaves the client alone; `listenerWith` is the closure over
callbacks that act. -/
def listener (r : Subscription) (betweeny : SubscriptionPayload) :
    List Invocation × Completion :=
  if betweeny.status = JSVal.num 200 then
    match betweeny.data with
    | none => ([], .threw)
    | some d =>
      if d.event = JSVal.str r.event ∧ d.id = JSVal.str r.id then
        ([{ callback := r.callback, arg := if d.data.truthy then d.data else JSVal.null }],
          .returned)
      else ([], .returned)
  else ([], .returned)

/-- The loop of the `subscription` dispatcher registered in the `token` handler:
```
for (let i = 0; i < this.subscriptions.length; i++) this.subscriptions[i].listener(betweeny);
```
A listener that throws ends the loop.  This is the walk for callbacks that
return and leave the client alone, so the list stays as it is; `dispatchWith`
is the loop over callbacks that act. -/
def dispatch (betweeny : SubscriptionPayload) :
    List Subscription → List Invocation × Completion
  | [] => ([], .returned)
  | r :: rest =>
    match listener r betweeny with
    | (calls, .threw) => (calls, .threw)
    | (calls, .returned) =>
      let (more, c) := dispatch betweeny rest
      (calls ++ more, c)

/-- Run the same listener body `n` times in a row, as an emitter with `n`
identical listeners does; a throw ends the emission. -/
def runTimes : Nat → List Invocation × Completion → List Invocation × Completion
  | 0, _ => ([], .returned)
  | n + 1, once =>
    match once with
    | (calls, .threw) => (calls, .threw)
    | (calls, .returned) =>
      let (more, c) := runTimes n once
      (calls ++ more, c)

/-! ## Request facade -/

/-- The string JavaScript concatenates for a value (`"Bearer " + this.token`).
Integers are printed in full; JavaScript prints those from 1e21 on in exponent
form, which is left out here. -/
def JSVal.toJSString : JSVal → String
  | .undefined => "undefined"
  | .null => "null"
  | .bool b => if b then "true" else "false"
  | .num n => toString n
  | .nan => "NaN"
  | .str s => s
  | .obj _ => "[object Object]"

/-- An HTTP response as the transport (axios) hands it over. -/
structure Response (α : Type) where
  status : Nat
  data : α
  deriving DecidableEq, Repr

/-- An error the transport fails with. -/
structure TransportError where
  message : String
  deriving DecidableEq, Repr

/-- What the transport's promise does: fulfils with a response or rejects. -/
inductive HttpResult (α : Type) where
  | response (r : Response α)
  | failure (e : TransportError)
  deriving DecidableEq, Repr

/-- The request handed to the transport. -/
structure Request (β : Type) where
  method : String
  url : String
  params : Option β
  body : Option β
  contentType : String
  authorization : String
  deriving DecidableEq, Repr

/-- How the promise returned by `get`/`post`/`put`/`delete` settles. -/
inductive Outcome (α : Type) where
  | resolved (data : α)
  | rejectedResponse (r : Response α)
  | rejectedError (e : TransportError)
  deriving DecidableEq, Repr

/-- First argument of `this.log.add`. -/
inductive LogMessage where
  | text (s : String)
  | error (e : TransportError)
  deriving DecidableEq, Repr

/-- An entry of `this.logs` (timestamp and attached data left out). -/
structure LogEntry where
  message : LogMessage
  level : String
  deriving DecidableEq, Repr

/-! ## Connection manager: sockets, promises, client state -/

/-- The `data` of an outbound envelope. -/
inductive OutData where
  | auth (token : JSVal)
  | pair (event id : String)
  deriving DecidableEq, Repr

/-- One `socket.emit(event, betweeny.toJSON())`. -/
structure Outbound where
  event : String
  message : BetweenyJSON OutData
  deriving DecidableEq, Repr

/-- An inbound `token` response `{status, data: {token, ...identity}}`. -/
structure TokenResponse where
  status : JSVal
  token : JSVal
  identity : UserOptions
  deriving DecidableEq, Repr

/-- Values the promises of `connect` and `#connectToSocket` resolve with. -/
inductive Resolution where
  | client
  | true_
  deriving DecidableEq, Repr

/-- Values the promises of `connect` and `#connectToSocket` reject with. -/
inductive Rejection where
  | noCredential
  | timedOut (ms : Nat)
  | handshake (response : TokenResponse)
  deriving DecidableEq, Repr

/-- State of a promise. -/
inductive Settled where
  | pending
  | resolved (v : Resolution)
  | rejected (e : Rejection)
  deriving DecidableEq, Repr

/-- Calling `resolve`/`reject` on a promise: only a pending promise changes. -/
def Settled.settle (p next : Settled) : Settled :=
  match p with
  | .pending => next
  | _ => p

/-- A socket returned by `io(...)`, with the listeners the client put on it.
Every socket has one `connected` listener, the one of the call that made it.
A `token` listener is kept as the index of the `connect` call whose
`resolve`/`reject` it closes over. -/
structure Socket where
  connected : Bool
  tokenHandlers : List Nat
  disconnectHandlers : Nat
  relays : Nat
  outbox : List Outbound
  deriving DecidableEq, Repr

/-- The two promises of one `connect` call: the one `connect` returns and the
one of `#connectToSocket`. -/
structure ConnectCall where
  outer : Settled
  inner : Settled
  deriving DecidableEq, Repr

/-- The client instance together with the credential store it talks to.
`sockets` lists every socket made so far, `this.socket` is the last one;
call `k` of `connect` made socket `k`.  `dispatchers` counts the
`subscription` listeners on the client's own emitter, `disconnects` the local
`disconnect` notifications emitted, `trace` the callback calls made. -/
structure Client where
  version : String
  baseUrl : String
  timeOutAfter : Nat
  token : JSVal
  sockets : List Socket
  calls : List ConnectCall
  subscriptions : List Subscription
  user : Option User
  logs : List LogEntry
  dispatchers : Nat
  disconnects : Nat
  store : JSVal
  trace : List Invocation
  deriving DecidableEq, Repr

/-- Options of `new WrangleBotAPIClient(options)`. -/
structure ClientOptions where
  version : Option String
  baseUrl : Option String
  timeOutAfter : Option Nat
  token : JSVal
  deriving DecidableEq, Repr

/-- Constructor of the client; `store` is what the credential store holds under
the key "token" (`null` when it holds nothing). -/
def Client.new (options : ClientOptions) (store : JSVal) : Client :=
  { version :=
      match options.version with
      | some v => if v != "" then v else "http://127.0.0.1:3200/api/v1"
      | none => "http://127.0.0.1:3200/api/v1"
    baseUrl :=
      match options.baseUrl with
      | some v => if v != "" then v else "http://127.0.0.1:3200"
      | none => "http://127.0.0.1:3200"
    timeOutAfter :=
      match options.timeOutAfter with
      | some t => if t != 0 then t else 60000
      | none => 60000
    token := options.token.or .undefined
    sockets := []
    calls := []
    subscriptions := []
    user := none
    logs := []
    dispatchers := 0
    disconnects := 0
    store := store
    trace := [] }

/-- Replace element `k` of a list by `f` of it. -/
def modifyAt {α : Type} (f : α → α) : Nat → List α → List α
  | _, [] => []
  | 0, x :: xs => f x :: xs
  | k + 1, x :: xs => x :: modifyAt f k xs

/-- The field `this.socket`. -/
def Client.socket (c : Client) : Option Socket :=
  c.sockets.getLast?

/-- Apply `f` to `this.socket`. -/
def Client.onSocket (c : Client) (f : Socket → Socket) : Client :=
  { c with sockets := modifyAt f (c.sockets.length - 1) c.sockets }

/-- Getter `status`. -/
def Client.status (c : Client) : Bool :=
  match c.socket with
  | some s => s.connected
  | none => false

/-- Calls `tween(address, event, data)`, that is
`this.socket.emit(event, new Betweeny(address, data).toJSON())`;
`none` when `this.socket` is undefined and the call throws. -/
def Client.tween (c : Client) (address : JSVal) (event : String) (data : OutData) :
    Option Client :=
  match c.socket with
  | none => none
  | some _ =>
    some (c.onSocket fun s =>
      { s with outbox := s.outbox ++ [{ event := event, message := (Betweeny.new address data).toJSON }] })

/-- Method `hook(event, callback)` for the `subscription` relay registered by
`connect`: one more `subscription` listener on `this.socket`. -/
def Client.hookRelay (c : Client) : Client :=
  c.onSocket fun s => { s with relays := s.relays + 1 }

/-- Calls `resolve`/`reject` of the `#connectToSocket` promise of call `k`.
When that settles the promise, the continuation in `connect` runs:
`.then` hooks the relay and calls `resolve(true)`, `.catch` calls `reject(e)`. -/
def Client.settleInner (c : Client) (k : Nat) (next : Settled) : Client :=
  match c.calls.get? k with
  | none => c
  | some call =>
    match call.inner with
    | .pending =>
      let c1 := { c with calls := modifyAt (fun x => { x with inner := next }) k c.calls }
      match next with
      | .pending => c1
      | .resolved _ =>
        let c2 := c1.hookRelay
        { c2 with calls :=
            modifyAt (fun x => { x with outer := x.outer.settle (.resolved .true_) }) k c2.calls }
      | .rejected e =>
        { c1 with calls :=
            modifyAt (fun x => { x with outer := x.outer.settle (.rejected e) }) k c1.calls }
    | _ => c

/-- Method `#connectToSocket()`, synchronous part: `this.socket = io(...)`, the
`connected` listener is put on it and the timer is started.  `outer` is the
state of the promise `connect` returns. -/
def Client.connectToSocket (c : Client) (outer : Settled) : Client :=
  { c with
    sockets := c.sockets ++
      [{ connected := false, tokenHandlers := [], disconnectHandlers := 0, relays := 0,
         outbox := [] }]
    calls := c.calls ++ [{ outer := outer, inner := .pending }] }

/-- Method `#loadToken()`: reads the store, assigns the result to `this.token`
and resolves with it. -/
def Client.loadToken (c : Client) : Client × JSVal :=
  ({ c with token := c.store }, c.store)

/-- Method `#setToken(token)`: writes the store and resolves with `true`. -/
def Client.setToken (c : Client) (token : JSVal) : Client :=
  { c with store := token }

/-- Method `connect(options)` with `token = options.token`.  Neither the early
`resolve(this)` nor the `reject` of the no-token branch is followed by a
`return`. -/
def Client.connect (c : Client) (token : JSVal) : Client :=
  let outer : Settled := if c.status then .resolved .client else .pending
  if token.truthy then
    (c.setToken token).connectToSocket outer
  else
    let (c1, loaded) := c.loadToken
    let outer1 := if !loaded.truthy then outer.settle (.rejected .noCredential) else outer
    c1.connectToSocket outer1

/-- The `connected` listener of the socket made by call `k`: sends the `auth`
envelope and puts a `token` and a `disconnect` listener on `this.socket`. -/
def Client.onConnected (c : Client) (k : Nat) : Client :=
  match c.tween .null "auth" (.auth c.token) with
  | none => c
  | some c1 =>
    c1.onSocket fun s =>
      { s with tokenHandlers := s.tokenHandlers ++ [k],
               disconnectHandlers := s.disconnectHandlers + 1 }

/-- One `token` listener, the one closing over the promise of call `k`. -/
def Client.tokenHandler (c : Client) (k : Nat) (response : TokenResponse) :
    Client × Completion :=
  if response.status = JSVal.num 200 then
    let c1 := { c with token := response.token }
    match User.new response.identity with
    | none => (c1, .threw)
    | some u =>
      let c2 := { c1 with user := some u, dispatchers := c1.dispatchers + 1 }
      (c2.settleInner k (.resolved .client), .returned)
  else (c.settleInner k (.rejected (.handshake response)), .returned)

/-- The socket emits `token` to its listeners in turn; a throw ends it. -/
def Client.emitToken (c : Client) (response : TokenResponse) : List Nat → Client
  | [] => c
  | k :: rest =>
    match c.tokenHandler k response with
    | (c1, .threw) => c1
    | (c1, .returned) => c1.emitToken response rest

/-- Inbound `token` on socket `s`. -/
def Client.onToken (c : Client) (s : Nat) (response : TokenResponse) : Client :=
  match c.sockets.get? s with
  | none => c
  | some sock => c.emitToken response sock.tokenHandlers

/-- Inbound `subscription` on socket `s`: every relay on that socket re-emits
it on the client, where every dispatcher walks `this.subscriptions`. -/
def Client.deliveries (c : Client) (s : Nat) (betweeny : SubscriptionPayload) :
    List Invocation × Completion :=
  match c.sockets.get? s with
  | none => ([], .returned)
  | some sock => runTimes sock.relays (runTimes c.dispatchers (dispatch betweeny c.subscriptions))

/-- Inbound `subscription` on socket `s`, as a state change. -/
def Client.onSubscription (c : Client) (s : Nat) (betweeny : SubscriptionPayload) : Client :=
  { c with trace := c.trace ++ (c.deliveries s betweeny).1 }

/-- The timer of call `k` fires:
```
if (this.socket.connected) resolve(this); else reject(new Error("Connection timed out ..."));
``` -/
def Client.onDeadline (c : Client) (k : Nat) : Client :=
  match c.socket with
  | none => c
  | some sock =>
    if sock.connected then c.settleInner k (.resolved .client)
    else c.settleInner k (.rejected (.timedOut c.timeOutAfter))

/-- The transport reports socket `s` connected. -/
def Client.onTransportUp (c : Client) (s : Nat) : Client :=
  { c with sockets := modifyAt (fun x => { x with connected := true }) s c.sockets }

/-- The transport reports socket `s` disconnected: the flag drops and every
`disconnect` listener emits the local `disconnect` notification. -/
def Client.onTransportDown (c : Client) (s : Nat) : Client :=
  match c.sockets.get? s with
  | none => c
  | some sock =>
    { c with
      sockets := modifyAt (fun x => { x with connected := false }) s c.sockets
      disconnects := c.disconnects + sock.disconnectHandlers }

/-- Method `subscribe(event, id, callback)`; `none` when `tween` throws. -/
def Client.subscribe (c : Client) (event id : String) (callback : Nat) : Option Client :=
  match c.tween .null "subscribe" (.pair event id) with
  | none => none
  | some c1 =>
    some { c1 with
      subscriptions := c1.subscriptions ++ [{ event := event, id := id, callback := callback }] }

/-- Method `unsubscribe(event, id)`; `none` when `tween` throws. -/
def Client.unsubscribe (c : Client) (event id : String) : Option Client :=
  match c.tween .null "unsubscribe" (.pair event id) with
  | none => none
  | some c1 =>
    some { c1 with
      subscriptions := c1.subscriptions.filter fun sub => !(sub.event == event && sub.id == id) }

/-! ## Request facade: the four verbs -/

/-- Calls `this.log.add(message, data)`. -/
def Client.logAdd (c : Client) (message : LogMessage) : Client :=
  { c with logs := c.logs ++ [{ message := message, level := "stdout" }] }

/-- Method `get(uri, params)`, run against the transport `axios`. -/
def Client.get {α β : Type} (c : Client) (uri : String) (params : Option β)
    (axios : Request β → HttpResult α) : Client × Outcome α :=
  let c1 := c.logAdd (.text ("[GET] " ++ uri))
  match axios { method := "GET", url := c1.version ++ uri, params := params, body := none,
                contentType := "application/json",
                authorization := "Bearer " ++ c1.token.toJSString } with
  | .response response =>
    let c2 := c1.logAdd (.text ("[API] " ++ uri ++ " : " ++ toString response.status))
    if response.status = 200 then (c2, .resolved response.data)
    else (c2, .rejectedResponse response)
  | .failure error => (c1.logAdd (.error error), .rejectedError error)

/-- Method `post(uri, data)`, run against the transport `axios`. -/
def Client.post {α β : Type} (c : Client) (uri : String) (data : Option β)
    (axios : Request β → HttpResult α) : Client × Outcome α :=
  let c1 := c.logAdd (.text ("[POST] " ++ uri))
  match axios { method := "POST", url := c1.version ++ uri, params := none, body := data,
                contentType := "application/json",
                authorization := "Bearer " ++ c1.token.toJSString } with
  | .response response =>
    let c2 := c1.logAdd (.text ("[API] " ++ uri ++ " : " ++ toString response.status))
    if response.status = 200 then (c2, .resolved response.data)
    else (c2, .rejectedResponse response)
  | .failure error => (c1.logAdd (.error error), .rejectedError error)

/-- Method `delete(uri)`, run against the transport `axios`. -/
def Client.delete {α β : Type} (c : Client) (uri : String)
    (axios : Request β → HttpResult α) : Client × Outcome α :=
  let c1 := c.logAdd (.text ("[DELETE] " ++ uri))
  match axios { method := "DELETE", url := c1.version ++ uri, params := none, body := none,
                contentType := "application/json",
                authorization := "Bearer " ++ c1.token.toJSString } with
  | .response response =>
    let c2 := c1.logAdd (.text ("[API] " ++ uri ++ " : " ++ toString response.status))
    if response.status = 200 then (c2, .resolved response.data)
    else (c2, .rejectedResponse response)
  | .failure error => (c1.logAdd (.error error), .rejectedError error)

/-- Method `put(uri, data)`, run against the transport `axios`. -/
def Client.put {α β : Type} (c : Client) (uri : String) (data : Option β)
    (axios : Request β → HttpResult α) : Client × Outcome α :=
  let c1 := c.logAdd (.text ("[PUT] " ++ uri))
  match axios { method := "PUT", url := c1.version ++ uri, params := none, body := data,
                contentType := "application/json",
                authorization := "Bearer " ++ c1.token.toJSString } with
  | .response response =>
    let c2 := c1.logAdd (.text ("[API] " ++ uri ++ " : " ++ toString response.status))
    if response.status = 200 then (c2, .resolved response.data)
    else (c2, .rejectedResponse response)
  | .failure error => (c1.logAdd (.error error), .rejectedError error)

/-! ## Sign-in and sign-out -/

/-- Body of `POST /login`. -/
structure Credentials where
  username : String
  password : String
  deriving DecidableEq, Repr

/-- Data of a `POST /login` response: `{token, ...identity}`. -/
structure LoginData where
  token : JSVal
  identity : UserOptions
  deriving DecidableEq, Repr

/-- How the promise of `signIn` settles. -/
inductive SignInOutcome where
  | resolved (token : JSVal)
  | rejectedResponse (r : Response LoginData)
  | rejectedError (e : TransportError)
  | rejectedUsernameRequired
  deriving DecidableEq, Repr

/-- Method `signIn(username, password)`, run against the transport `axios`. -/
def Client.signIn (c : Client) (username password : String)
    (axios : Request Credentials → HttpResult LoginData) : Client × SignInOutcome :=
  match c.post "/login" (some { username := username, password := password }) axios with
  | (c1, .resolved response) =>
    let c2 := { c1 with token := response.token }
    match User.new response.identity with
    | none => (c2, .rejectedUsernameRequired)
    | some u => ({ c2 with user := some u }, .resolved response.token)
  | (c1, .rejectedResponse r) => (c1, .rejectedResponse r)
  | (c1, .rejectedError e) => (c1, .rejectedError e)

/-- Method `signOut()`; the flag tells whether the promise resolved (it rejects
when `this.socket` is undefined and `close` cannot be called). -/
def Client.signOut (c : Client) : Client × Bool :=
  let c1 := { c with store := .null, token := .null, user := none }
  match c1.socket with
  | none => (c1, false)
  | some sock =>
    if sock.connected then (c1.onTransportDown (c1.sockets.length - 1), true) else (c1, true)

/-! ## Runs -/

/-- What can happen to a client: calls of its methods and events of the
transport.  A socket is named by its index in `sockets`, a timer by the index
of the `connect` call that started it. -/
inductive Event where
  | connect (token : JSVal)
  | signIn (username password : String) (result : HttpResult LoginData)
  | signOut
  | subscribe (event id : String) (callback : Nat)
  | unsubscribe (event id : String)
  | transportUp (s : Nat)
  | transportDown (s : Nat)
  | connected (s : Nat)
  | token (s : Nat) (response : TokenResponse)
  | subscription (s : Nat) (betweeny : SubscriptionPayload)
  | deadline (k : Nat)
  deriving DecidableEq, Repr

/-- One event.  A method call that throws leaves the client as it was; a
`connected` event reaches the one `connected` listener of its socket. -/
def Client.step (c : Client) : Event → Client
  | .connect token => c.connect token
  | .signIn username password result => (c.signIn username password fun _ => result).1
  | .signOut => c.signOut.1
  | .subscribe event id callback => (c.subscribe event id callback).getD c
  | .unsubscribe event id => (c.unsubscribe event id).getD c
  | .transportUp s => c.onTransportUp s
  | .transportDown s => c.onTransportDown s
  | .connected s => if s < c.sockets.length then c.onConnected s else c
  | .token s response => c.onToken s response
  | .subscription s betweeny => c.onSubscription s betweeny
  | .deadline k => c.onDeadline k

/-- A run: events handled one after the other. -/
def Client.run (c : Client) (events : List Event) : Client :=
  events.foldl Client.step c

/-- State of the promise returned by call `k` of `connect`. -/
def Client.connectPromise (c : Client) (k : Nat) : Settled :=
  match c.calls.get? k with
  | some call => call.outer
  | none => .pending

/-- State of the `#connectToSocket` promise of call `k`. -/
def Client.socketPromise (c : Client) (k : Nat) : Settled :=
  match c.calls.get? k with
  | some call => call.inner
  | none => .pending

/-- A client made with no options over a credential store holding `store`. -/
def Client.fresh (store : JSVal) : Client :=
  Client.new { version := none, baseUrl := none, timeOutAfter := none, token := .undefined } store

/-! ## Subscription router: callbacks that act on the client -/

/-- What the callbacks do when called: callback `cb`, called with `arg` on the
client `c`, leaves the client `(callbacks cb arg c).1` and returns or throws. -/
def Callbacks : Type :=
  Nat → JSVal → Client → Client × Completion

/-- How a walk of the dispatcher ended: the loop ran to its end, a listener
threw out of it, or it was still running when the steps allowed ran out. -/
inductive WalkEnd where
  | returned
  | threw
  | unfinished
  deriving DecidableEq, Repr

/-- Result of a walk of the dispatcher: the calls made, the client it left and
how it ended. -/
structure Walk where
  calls : List Invocation
  client : Client
  finish : WalkEnd
  deriving DecidableEq, Repr

/-- The closure `listener` built in `subscribe`, with the callback run:
```
if (betweeny.status === 200 && betweeny.data.event === event && betweeny.data.id === id)
  callback(betweeny.data.data ? betweeny.data.data : null);
```
There is no `try`: a callback that throws makes the listener throw. -/
def listenerWith (callbacks : Callbacks) (r : Subscription) (betweeny : SubscriptionPayload)
    (c : Client) : List Invocation × Client × Completion :=
  if betweeny.status = JSVal.num 200 then
    match betweeny.data with
    | none => ([], c, .threw)
    | some d =>
      if d.event = JSVal.str r.event ∧ d.id = JSVal.str r.id then
        let arg := if d.data.truthy then d.data else JSVal.null
        ([{ callback := r.callback, arg := arg }], callbacks r.callback arg c)
      else ([], c, .returned)
  else ([], c, .returned)

/-- The loop of the `subscription` dispatcher from index `i` on, at most `fuel`
iterations of it:
```
for (let i = 0; i < this.subscriptions.length; i++) this.subscriptions[i].listener(betweeny);
```
The list and its length are read anew in every iteration, and there is no
`try`: a listener that throws ends the loop. -/
def dispatchWith (callbacks : Callbacks) (betweeny : SubscriptionPayload) :
    Nat → Nat → Client → Walk
  | 0, _, c => { calls := [], client := c, finish := .unfinished }
  | fuel + 1, i, c =>
    match c.subscriptions.get? i with
    | none => { calls := [], client := c, finish := .returned }
    | some r =>
      match listenerWith callbacks r betweeny c with
      | (calls, c1, .threw) => { calls := calls, client := c1, finish := .threw }
      | (calls, c1, .returned) =>
        let rest := dispatchWith callbacks betweeny fuel (i + 1) c1
        { rest with calls := calls ++ rest.calls }

/-! ## Session identity on the client: the `user` getter and `save` -/

/-- Getter `user`: `false` (here `none`) when `_user` is not set, else the
user object. -/
def Client.getUser (c : Client) : Option User :=
  match c.user with
  | none => none
  | some u => some u

/-- Body of the `PUT` sent by `user.save`. -/
structure SaveBody where
  firstName : JSVal
  lastName : JSVal
  email : JSVal
  password : JSVal
  deriving DecidableEq, Repr

/-- Data of the answer to that `PUT`, of which `save` reads `status`. -/
structure SaveReply where
  status : JSVal
  deriving DecidableEq, Repr

/-- How the promise of `user.save` settles. -/
inductive SaveOutcome where
  | resolved
  | rejectedData (reply : SaveReply)
  | rejectedResponse (r : Response SaveReply)
  | rejectedError (e : TransportError)
  | rejectedNoUser
  deriving DecidableEq, Repr

/-- The closure `this._user.save(options)` installed by the getter, run
against the transport `axios`.  `options` is handed to `update` as it came;
`password` is `options.password`. -/
def Client.userSave (c : Client) (options : UserOptions) (password : JSVal)
    (axios : Request SaveBody → HttpResult SaveReply) : Client × SaveOutcome :=
  match c.user with
  | none => (c, .rejectedNoUser)
  | some u =>
    match c.put (c.version ++ "/users/" ++ u.username.toJSString)
        (some { firstName := options.firstName, lastName := options.lastName,
                email := options.email, password := password.or .null }) axios with
    | (c1, .resolved response) =>
      if response.status = JSVal.num 200 then
        ({ c1 with user := c1.user.map fun v => v.update options }, .resolved)
      else (c1, .rejectedData response)
    | (c1, .rejectedResponse r) => (c1, .rejectedResponse r)
    | (c1, .rejectedError e) => (c1, .rejectedError e)

/-! ## Query surface: `library.one(id).folders.put` -/

/-- The `data` object given to `folders.put`; an absent field reads
`undefined`. -/
structure FolderData where
  pathToFolder : JSVal
  overwrite : JSVal
  deriving DecidableEq, Repr

/-- How `folders.put` ends: it threw before any call, or the facade's promise
settled. -/
inductive FoldersPutOutcome (α : Type) where
  | threw (message : String)
  | settled (outcome : Outcome α)
  deriving DecidableEq, Repr

/-- The function `query.library.one(id).folders.put(data)`, run against the
transport `axios`:
```
if (!data.pathToFolder) throw new Error("API Error: pathToFolder is required");
if (!data.overwrite) throw new Error("API Error: overwrite is required");
return await this.put(uri + uriFolders, data);
``` -/
def Client.foldersPut {α : Type} (c : Client) (id : String) (data : FolderData)
    (axios : Request FolderData → HttpResult α) : Client × FoldersPutOutcome α :=
  let uri := "/library/" ++ id
  let uriFolders := "/folders"
  if !data.pathToFolder.truthy then (c, .threw "API Error: pathToFolder is required")
  else if !data.overwrite.truthy then (c, .threw "API Error: overwrite is required")
  else
    let (c1, outcome) := c.put (uri ++ uriFolders) (some data) axios
    (c1, .settled outcome)

/-! ## Sample inputs -/

/-- Identity fields of the user "admin". -/
def adminIdentity : UserOptions :=
  { username := .str "admin", email := .undefined, firstName := .undefined,
    lastName := .undefined, roles := none, libraries := none }

/-- A successful handshake response `{status: 200, data: {token: "srv", username: "admin"}}`. -/
def handshakeOk : TokenResponse :=
  { status := .num 200, token := .str "srv", identity := adminIdentity }

/-- The payload `{status: 200, data: {event: "job", id, data}}`. -/
def jobUpdate (id : String) (data : JSVal) : SubscriptionPayload :=
  { status := .num 200, data := some { event := .str "job", id := .str id, data := data } }

/-- The object `{progress: 50}`. -/
def halfDone : JSVal :=
  .obj [("progress", 50)]

/-- A client after `connect({token: "abc"})`, transport up, `connected`, and a
successful handshake on a fresh instance whose store was empty. -/
def readyClient : Client :=
  (Client.fresh .null).run
    [.connect (.str "abc"), .transportUp 0, .connected 0, .token 0 handshakeOk]

/-- Three records, two of them for the pair ("job", "42"). -/
def threeRecords : List Subscription :=
  [{ event := "job", id := "42", callback := 1 }, { event := "job", id := "43", callback := 2 },
   { event := "job", id := "42", callback := 3 }]

/-- The ready client after three `subscribe` calls, two for ("job", "42"). -/
def subscribedClient : Client :=
  readyClient.run [.subscribe "job" "42" 1, .subscribe "job" "43" 2, .subscribe "job" "42" 3]

/-- A `POST /login` answer with status 200 carrying the token "tok". -/
def loginOk : HttpResult LoginData :=
  .response { status := 200, data := { token := .str "tok", identity := adminIdentity } }

/-- The ready client after the transport dropped and came back: `connected`
and a successful handshake arrive a second time on the same socket. -/
def reconnectedClient : Client :=
  readyClient.run [.transportDown 0, .transportUp 0, .connected 0, .token 0 handshakeOk]

/-- Identity fields of the user "ann", with one role and one library. -/
def annIdentity : UserOptions :=
  { username := .str "ann", email := .str "ann@example.org", firstName := .str "Ann",
    lastName := .str "Lee", roles := some ["admin"], libraries := some ["films"] }

/-- Options that carry a first name and nothing else. -/
def firstNameOnly : UserOptions :=
  { username := .undefined, email := .undefined, firstName := .str "Bea",
    lastName := .undefined, roles := none, libraries := none }

/-- Options that carry another username and nothing else. -/
def renameToRoot : UserOptions :=
  { username := .str "root", email := .undefined, firstName := .undefined,
    lastName := .undefined, roles := none, libraries := none }

/-- Options as `user.save` is given them: names and email, no roles, no
libraries, no username. -/
def namesAndEmail : UserOptions :=
  { username := .undefined, email := .str "bea@example.org", firstName := .str "Bea",
    lastName := .str "Lee", roles := none, libraries := none }

/-- A client on which "ann" signed in. -/
def annClient : Client :=
  (Client.fresh .null).run
    [.signIn "ann" "pw" (.response { status := 200, data := { token := .str "tok", identity := annIdentity } })]

/-- A transport that answers every request with status 200 and a body whose
`status` field is 200. -/
def saveAccepted (_ : Request SaveBody) : HttpResult SaveReply :=
  .response { status := 200, data := { status := .num 200 } }

/-- A transport that answers every request with status 200 and no data. -/
def putAccepted (_ : Request FolderData) : HttpResult Unit :=
  .response { status := 200, data := () }

/-- Callbacks that all return and leave the client alone. -/
def quietCallbacks : Callbacks :=
  fun _ _ c => (c, .returned)

/-- Callbacks of which number 1 throws; the others return and leave the client
alone. -/
def firstThrows : Callbacks :=
  fun cb _ c => if cb = 1 then (c, .threw) else (c, .returned)

/-- Callbacks of which number 1 calls `unsubscribe("task", "9")`; the others
return and leave the client alone. -/
def firstUnsubscribesTask : Callbacks :=
  fun cb _ c =>
    if cb = 1 then
      match c.unsubscribe "task" "9" with
      | some c1 => (c1, .returned)
      | none => (c, .threw)
    else (c, .returned)

/-- The ready client after two `subscribe` calls for ("job", "42"). -/
def twoJobRecordsClient : Client :=
  readyClient.run [.subscribe "job" "42" 1, .subscribe "job" "42" 3]

/-- The ready client after a `subscribe` call for ("task", "9") and two for
("job", "42"). -/
def taskAndTwoJobRecordsClient : Client :=
  readyClient.run [.subscribe "task" "9" 0, .subscribe "job" "42" 1, .subscribe "job" "42" 3]

/-! ## Conditions in the words of the specification -/

/-- The matching condition as the specification words it: the payload's status
is 200 and its `data.event` and `data.id` are the record's event and id. -/
def Subscription.selectedBy (r : Subscription) (p : SubscriptionPayload) : Bool :=
  match p.data with
  | some d => p.status == JSVal.num 200 && d.event == JSVal.str r.event && d.id == JSVal.str r.id
  | none => false

/-- The facade contract as the specification words it: status exactly 200
resolves with the data, any other status rejects with the whole response, a
transport failure rejects with the error. -/
def facadeContract {α : Type} : HttpResult α → Outcome α
  | .response r => if r.status = 200 then .resolved r.data else .rejectedResponse r
  | .failure e => .rejectedError e

/-- The condition of the identity invariant as the specification words it: a
`token` response with status 200 has been received after the most recent
`signOut` or transport `disconnect`. -/
def handshakeSinceReset (events : List Event) : Bool :=
  events.foldl
    (fun held e =>
      match e with
      | .signOut => false
      | .transportDown _ => false
      | .token _ response => held || response.status == JSVal.num 200
      | _ => held)
    false

/-- The events that set `_user` when handled in state `c`: a `signIn` answered
with status 200 and a truthy username, and a `token` response with status 200
and a truthy username that reaches at least one `token` listener. -/
def Event.buildsIdentity (c : Client) : Event → Bool
  | .signIn _ _ (.response r) => r.status == 200 && r.data.identity.username.truthy
  | .token s response =>
    response.status == JSVal.num 200 && response.identity.username.truthy &&
      (match c.sockets.get? s with
        | some sock => !sock.tokenHandlers.isEmpty
        | none => false)
  | _ => false

/-- Client `d` keeps every settled `connect` promise of client `c`. -/
def KeepsSettled (c d : Client) : Prop :=
  ∀ j v, c.connectPromise j = v → v ≠ .pending → d.connectPromise j = v

/-! ## Subscription router: proofs -/

theorem listener_of_selected (r : Subscription) (p : SubscriptionPayload)
    (h : r.selectedBy p = true) :
    ∃ arg, listener r p = ([{ callback := r.callback, arg := arg }], .returned) := by
  unfold Subscription.selectedBy at h
  cases hd : p.data with
  | none => simp [hd] at h
  | some d =>
    simp [hd] at h
    obtain ⟨⟨hs, he⟩, hi⟩ := h
    exact ⟨if d.data.truthy then d.data else JSVal.null, by simp [listener, hd, hs, he, hi]⟩

theorem listener_of_not_selected (r : Subscription) (p : SubscriptionPayload)
    (h : r.selectedBy p = false) : (listener r p).1 = [] := by
  unfold Subscription.selectedBy at h
  unfold listener
  cases hd : p.data with
  | none => by_cases hs : p.status = JSVal.num 200 <;> simp [hs]
  | some d =>
    simp [hd] at h
    by_cases hs : p.status = JSVal.num 200
    · by_cases he : d.event = JSVal.str r.event
      · have hi := h hs he
        simp [hs, he, hi]
      · simp [hs, he]
    · simp [hs]

theorem listener_threw_iff (r : Subscription) (p : SubscriptionPayload) :
    (listener r p).2 = .threw ↔ (p.status = JSVal.num 200 ∧ p.data = none) := by
  unfold listener
  cases hd : p.data with
  | none => by_cases hs : p.status = JSVal.num 200 <;> simp [hs]
  | some d =>
    by_cases hs : p.status = JSVal.num 200
    · by_cases hm : d.event = JSVal.str r.event ∧ d.id = JSVal.str r.id <;> simp [hs, hm]
    · simp [hs]

theorem selectedBy_false_of_no_data (r : Subscription) (p : SubscriptionPayload)
    (h : p.data = none) : r.selectedBy p = false := by
  simp [Subscription.selectedBy, h]

theorem dispatch_callbacks (p : SubscriptionPayload) (subs : List Subscription) :
    (dispatch p subs).1.map Invocation.callback
      = (subs.filter fun r => r.selectedBy p).map Subscription.callback := by
  induction subs with
  | nil => simp [dispatch]
  | cons r rest ih =>
    cases hl : listener r p with
    | mk calls done =>
      cases done with
      | threw =>
        have hthrew := (listener_threw_iff r p).1 (by rw [hl])
        have hnone : ∀ x : Subscription, x.selectedBy p = false :=
          fun x => selectedBy_false_of_no_data x p hthrew.2
        have hcalls : calls = [] := by
          have := listener_of_not_selected r p (hnone r)
          rw [hl] at this
          exact this
        have hfilter : ((r :: rest).filter fun x => x.selectedBy p) = [] := by
          rw [List.filter_eq_nil_iff]
          intro x _
          simp [hnone x]
        simp [dispatch, hl, hcalls, hfilter]
      | returned =>
        cases hsel : r.selectedBy p with
        | true =>
          obtain ⟨arg, harg⟩ := listener_of_selected r p hsel
          rw [hl] at harg
          have hcalls : calls = [{ callback := r.callback, arg := arg }] := by
            simpa using congrArg Prod.fst harg
          simp [dispatch, hl, hcalls, hsel, List.filter_cons, ih]
        | false =>
          have hcalls : calls = [] := by
            have := listener_of_not_selected r p hsel
            rw [hl] at this
            exact this
          simp [dispatch, hl, hcalls, hsel, List.filter_cons, ih]

theorem runTimes_nil (n : Nat) (once : List Invocation × Completion) (h : once.1 = []) :
    (runTimes n once).1 = [] := by
  obtain ⟨calls, done⟩ := once
  simp only at h
  subst h
  induction n with
  | zero => simp [runTimes]
  | succ n ih =>
    cases done with
    | threw => simp [runTimes]
    | returned => simpa [runTimes] using ih

theorem modifyAt_length {α : Type} (f : α → α) (k : Nat) (l : List α) :
    (modifyAt f k l).length = l.length := by
  induction l generalizing k with
  | nil => simp [modifyAt]
  | cons x xs ih =>
    cases k with
    | zero => simp [modifyAt]
    | succ k => simp [modifyAt, ih]

theorem onSocket_sockets_length (c : Client) (f : Socket → Socket) :
    (c.onSocket f).sockets.length = c.sockets.length := by
  simp [Client.onSocket, modifyAt_length]

theorem socket_isSome_of_ne_nil (c : Client) (h : c.sockets ≠ []) : ∃ sock, c.socket = some sock := by
  unfold Client.socket
  cases hl : c.sockets.getLast? with
  | none => exact absurd (List.getLast?_eq_none_iff.1 hl) h
  | some sock => exact ⟨sock, rfl⟩

theorem tween_of_socket (c : Client) (address : JSVal) (event : String) (data : OutData)
    (h : c.sockets ≠ []) :
    ∃ c1, c.tween address event data = some c1 ∧ c1.subscriptions = c.subscriptions
      ∧ c1.sockets ≠ [] := by
  obtain ⟨sock, hsock⟩ := socket_isSome_of_ne_nil c h
  refine ⟨c.onSocket fun s =>
    { s with outbox := s.outbox ++ [{ event := event, message := (Betweeny.new address data).toJSON }] },
    by simp only [Client.tween, hsock], rfl, ?_⟩
  intro hnil
  have hlen := onSocket_sockets_length c fun s =>
    { s with outbox := s.outbox ++ [{ event := event, message := (Betweeny.new address data).toJSON }] }
  rw [hnil] at hlen
  exact h (List.length_eq_zero.1 hlen.symm)

theorem listenerWith_of_selected (callbacks : Callbacks) (r : Subscription)
    (p : SubscriptionPayload) (c : Client) (h : r.selectedBy p = true) :
    ∃ arg, listener r p = ([{ callback := r.callback, arg := arg }], .returned)
      ∧ listenerWith callbacks r p c
          = ([{ callback := r.callback, arg := arg }], callbacks r.callback arg c) := by
  unfold Subscription.selectedBy at h
  cases hd : p.data with
  | none => simp [hd] at h
  | some d =>
    simp [hd] at h
    obtain ⟨⟨hs, he⟩, hi⟩ := h
    exact ⟨if d.data.truthy then d.data else JSVal.null,
      by simp [listener, hd, hs, he, hi], by simp [listenerWith, hd, hs, he, hi]⟩

theorem listenerWith_of_not_selected (callbacks : Callbacks) (r : Subscription)
    (p : SubscriptionPayload) (c : Client) (h : r.selectedBy p = false) :
    listenerWith callbacks r p c = ((listener r p).1, c, (listener r p).2) := by
  unfold Subscription.selectedBy at h
  unfold listenerWith listener
  cases hd : p.data with
  | none => by_cases hs : p.status = JSVal.num 200 <;> simp [hs]
  | some d =>
    simp [hd] at h
    by_cases hs : p.status = JSVal.num 200
    · by_cases he : d.event = JSVal.str r.event
      · have hi := h hs he
        simp [hs, he, hi]
      · simp [hs, he]
    · simp [hs]

theorem dispatchWith_of_quiet (callbacks : Callbacks) (p : SubscriptionPayload)
    (subs : List Subscription)
    (hquiet : ∀ r ∈ subs, r.selectedBy p = true → ∀ arg d,
        (callbacks r.callback arg d).2 = .returned
          ∧ (callbacks r.callback arg d).1.subscriptions = d.subscriptions)
    (fuel i : Nat) (c : Client) (hsubs : c.subscriptions = subs)
    (hfuel : subs.length - i < fuel) :
    (dispatchWith callbacks p fuel i c).calls = (dispatch p (subs.drop i)).1
      ∧ (dispatchWith callbacks p fuel i c).finish ≠ .unfinished := by
  induction fuel generalizing i c with
  | zero => omega
  | succ fuel ih =>
    unfold dispatchWith
    cases hget : c.subscriptions.get? i with
    | none =>
      have hle : subs.length ≤ i := by
        rw [hsubs] at hget
        simpa using hget
      simp [List.drop_eq_nil_of_le hle, dispatch]
    | some r =>
      rw [hsubs] at hget
      obtain ⟨hlt, hr⟩ : ∃ h : i < subs.length, subs[i] = r := by
        simpa [List.get?_eq_getElem?, List.getElem?_eq_some_iff] using hget
      have hmem : r ∈ subs := hr ▸ List.getElem_mem hlt
      have hdrop : subs.drop i = r :: subs.drop (i + 1) := by
        rw [List.drop_eq_getElem_cons hlt, hr]
      rw [hdrop]
      cases hsel : r.selectedBy p with
      | true =>
        obtain ⟨arg, hl, hlw⟩ := listenerWith_of_selected callbacks r p c hsel
        obtain ⟨hret, hkeep⟩ := hquiet r hmem hsel arg c
        obtain ⟨hcalls, hfin⟩ := ih (i + 1) (callbacks r.callback arg c).1
          (by rw [hkeep, hsubs]) (by omega)
        cases hcb : callbacks r.callback arg c with
        | mk c1 done =>
          rw [hcb] at hret hcalls hfin
          simp only at hret hcalls hfin
          subst hret
          simp only [hlw, hcb, dispatch, hl]
          exact ⟨by simp [hcalls], hfin⟩
      | false =>
        have hlw := listenerWith_of_not_selected callbacks r p c hsel
        obtain ⟨hcalls, hfin⟩ := ih (i + 1) c hsubs (by omega)
        cases hl : listener r p with
        | mk calls done =>
          rw [hl] at hlw
          simp only at hlw
          cases done with
          | threw => simp [hlw, dispatch, hl]
          | returned =>
            simp only [hlw, dispatch, hl]
            exact ⟨by simp [hcalls], hfin⟩

/-- C1 as stated fails: with two records for ("job", "42") whose first
callback throws, the walk calls the first callback and ends, and the second
matching record is never called; and when the first matching callback calls
`unsubscribe("task", "9")` for a record ahead of it in the list, the records
move up, the index steps past the second matching record and it is never
called either. -/
theorem walk_skips_matching_record_after_throw_or_unsubscribe :
    (twoJobRecordsClient.subscriptions.filter
        fun r => r.selectedBy (jobUpdate "42" halfDone)).map Subscription.callback = [1, 3]
      ∧ (dispatchWith firstThrows (jobUpdate "42" halfDone) 10 0
          twoJobRecordsClient).calls.map Invocation.callback = [1]
      ∧ (dispatchWith firstThrows (jobUpdate "42" halfDone) 10 0
          twoJobRecordsClient).finish = .threw
      ∧ (taskAndTwoJobRecordsClient.subscriptions.filter
        fun r => r.selectedBy (jobUpdate "42" halfDone)).map Subscription.callback = [1, 3]
      ∧ (dispatchWith firstUnsubscribesTask (jobUpdate "42" halfDone) 10 0
          taskAndTwoJobRecordsClient).calls.map Invocation.callback = [1]
      ∧ (dispatchWith firstUnsubscribesTask (jobUpdate "42" halfDone) 10 0
          taskAndTwoJobRecordsClient).finish = .returned := by
  decide

/-- C1, amended. Provided the callback of every matching record returns and
leaves the subscriptions list as it is, one walk of the dispatcher over the
subscriptions list (given one step more than the list is long) comes to an
end and calls exactly the callbacks of the records selected by the payload
(status 200, same event, same id), once per record and in list order,
duplicates included; these are the calls of `dispatch`; and `subscribe` puts
its record at the end of the list, so list order is registration order. -/
theorem walk_invokes_selected_records_in_registration_order
    (callbacks : Callbacks) (p : SubscriptionPayload) (c : Client) (fuel : Nat)
    (event id : String) (callback : Nat)
    (hsocket : c.sockets ≠ [])
    (hfuel : c.subscriptions.length < fuel)
    (hquiet : ∀ r ∈ c.subscriptions, r.selectedBy p = true → ∀ arg d,
        (callbacks r.callback arg d).2 = .returned
          ∧ (callbacks r.callback arg d).1.subscriptions = d.subscriptions) :
    (dispatchWith callbacks p fuel 0 c).finish ≠ .unfinished
      ∧ (dispatchWith callbacks p fuel 0 c).calls.map Invocation.callback
          = (c.subscriptions.filter fun r => r.selectedBy p).map Subscription.callback
      ∧ (dispatchWith callbacks p fuel 0 c).calls = (dispatch p c.subscriptions).1
      ∧ ∃ c1, c.subscribe event id callback = some c1
          ∧ c1.subscriptions
              = c.subscriptions ++ [{ event := event, id := id, callback := callback }] := by
  obtain ⟨hcalls, hfin⟩ :=
    dispatchWith_of_quiet callbacks p c.subscriptions hquiet fuel 0 c rfl (by omega)
  rw [List.drop_zero] at hcalls
  refine ⟨hfin, ?_, hcalls, ?_⟩
  · rw [hcalls]
    exact dispatch_callbacks p c.subscriptions
  · obtain ⟨c1, h1, hsubs, _⟩ := tween_of_socket c .null "subscribe" (.pair event id) hsocket
    exact ⟨{ c1 with
        subscriptions := c1.subscriptions ++ [{ event := event, id := id, callback := callback }] },
      by simp only [Client.subscribe, h1], by simp [hsubs]⟩

theorem walk_invokes_selected_records_in_registration_order_witness :
    subscribedClient.sockets ≠ []
      ∧ subscribedClient.subscriptions.length < 4
      ∧ (dispatchWith quietCallbacks (jobUpdate "42" halfDone) 4 0
          subscribedClient).finish ≠ .unfinished
      ∧ (dispatchWith quietCallbacks (jobUpdate "42" halfDone) 4 0
          subscribedClient).calls.map Invocation.callback = [1, 3] :=
  ⟨by decide, by decide, by
    obtain ⟨hfin, hcalls, _⟩ :=
      walk_invokes_selected_records_in_registration_order quietCallbacks
        (jobUpdate "42" halfDone) subscribedClient 4 "job" "42" 7 (by decide) (by decide)
        (fun _ _ _ _ _ => ⟨rfl, rfl⟩)
    exact ⟨hfin, by rw [hcalls]; decide⟩⟩

theorem dispatch_nil_of_none_selected (p : SubscriptionPayload) (subs : List Subscription)
    (h : ∀ r ∈ subs, r.selectedBy p = false) : (dispatch p subs).1 = [] := by
  have hmap := dispatch_callbacks p subs
  have hfilter : (subs.filter fun r => r.selectedBy p) = [] := by
    rw [List.filter_eq_nil_iff]
    intro r hr
    simp [h r hr]
  rw [hfilter] at hmap
  simpa using hmap

theorem deliveries_nil_of_none_selected (c : Client) (s : Nat) (p : SubscriptionPayload)
    (h : ∀ r ∈ c.subscriptions, r.selectedBy p = false) : (c.deliveries s p).1 = [] := by
  unfold Client.deliveries
  cases c.sockets.get? s with
  | none => rfl
  | some sock =>
    have hd := dispatch_nil_of_none_selected p c.subscriptions h
    exact runTimes_nil sock.relays _ (runTimes_nil c.dispatchers _ hd)

theorem unsubscribe_of_socket (c : Client) (event id : String) (h : c.sockets ≠ []) :
    ∃ c1, c.unsubscribe event id = some c1 ∧ c1.sockets ≠ []
      ∧ c1.subscriptions = c.subscriptions.filter fun r => !(r.event == event && r.id == id) := by
  obtain ⟨c0, h0, hsubs, hne⟩ := tween_of_socket c .null "unsubscribe" (.pair event id) h
  exact ⟨{ c0 with
      subscriptions := c0.subscriptions.filter fun r => !(r.event == event && r.id == id) },
    by simp only [Client.unsubscribe, h0], hne, by simp [hsubs]⟩

/-- C8. With a socket in place, `unsubscribe(event, id)` returns and leaves
`subscriptions` equal to the old list without the records whose event and id
both equal the pair, the others in their order; with no such record the list is
unchanged, a second `unsubscribe(event, id)` changes nothing, and an inbound
payload for that pair then calls no callback at all. -/
theorem unsubscribe_removes_exactly_the_pair (c : Client) (event id : String)
    (hsocket : c.sockets ≠ []) :
    ∃ c1, c.unsubscribe event id = some c1
      ∧ c1.subscriptions = c.subscriptions.filter (fun r => ¬(r.event = event ∧ r.id = id))
      ∧ ((∀ r ∈ c.subscriptions, ¬(r.event = event ∧ r.id = id))
          → c1.subscriptions = c.subscriptions)
      ∧ (∃ c2, c1.unsubscribe event id = some c2 ∧ c2.subscriptions = c1.subscriptions)
      ∧ ∀ (s : Nat) (status data : JSVal),
          (c1.deliveries s
              { status := status,
                data := some { event := .str event, id := .str id, data := data } }).1 = []
            ∧ (c1.onSubscription s
              { status := status,
                data := some { event := .str event, id := .str id, data := data } }).trace
                = c1.trace := by
  obtain ⟨c1, h1, hne1, hsubs1⟩ := unsubscribe_of_socket c event id hsocket
  obtain ⟨c2, h2, _, hsubs2⟩ := unsubscribe_of_socket c1 event id hne1
  have hgone : ∀ r ∈ c1.subscriptions, ¬(r.event = event ∧ r.id = id) := by
    intro r hr
    rw [hsubs1] at hr
    have hkeep := (List.mem_filter.1 hr).2
    simp at hkeep
    tauto
  have hfix : ∀ l : List Subscription, (∀ r ∈ l, ¬(r.event = event ∧ r.id = id)) →
      (l.filter fun r => !(r.event == event && r.id == id)) = l := by
    intro l hl
    rw [List.filter_eq_self]
    intro r hr
    have hkeep := hl r hr
    by_cases he : r.event = event <;> by_cases hi : r.id = id <;> simp [he, hi]
    exact hkeep ⟨he, hi⟩
  refine ⟨c1, h1, ?_, ?_, ⟨c2, h2, ?_⟩, ?_⟩
  · rw [hsubs1]
    congr 1
    funext r
    by_cases he : r.event = event <;> by_cases hi : r.id = id <;> simp [he, hi]
  · intro hnone
    rw [hsubs1]
    exact hfix _ hnone
  · rw [hsubs2]
    exact hfix _ hgone
  · intro s status data
    have hnil := deliveries_nil_of_none_selected c1 s
      { status := status, data := some { event := .str event, id := .str id, data := data } }
      (by
        intro r hr
        have hr1 := hgone r hr
        simp only [Subscription.selectedBy]
        by_cases he : event = r.event
        · by_cases hi : id = r.id
          · exact absurd ⟨he.symm, hi.symm⟩ hr1
          · simp [hi]
        · simp [he])
    exact ⟨hnil, by simp [Client.onSubscription, hnil]⟩

theorem unsubscribe_removes_exactly_the_pair_witness :
    subscribedClient.sockets ≠ []
      ∧ ∃ c1, subscribedClient.unsubscribe "job" "42" = some c1
          ∧ c1.subscriptions = [{ event := "job", id := "43", callback := 2 }] :=
  ⟨by decide, by
    obtain ⟨c1, h1, h2, _⟩ :=
      unsubscribe_removes_exactly_the_pair subscribedClient "job" "42" (by decide)
    exact ⟨c1, h1, by rw [h2]; decide⟩⟩

/-- C9. The listener hands the callback `null` when the payload's
`data.data` is 0, `false` or the empty string, values that are neither `null`
nor `undefined`: it tests the value for truthiness. -/
theorem listener_hands_null_for_falsy_data :
    listener { event := "job", id := "42", callback := 7 } (jobUpdate "42" (.num 0))
        = ([{ callback := 7, arg := .null }], .returned)
      ∧ listener { event := "job", id := "42", callback := 7 } (jobUpdate "42" (.bool false))
        = ([{ callback := 7, arg := .null }], .returned)
      ∧ listener { event := "job", id := "42", callback := 7 } (jobUpdate "42" (.str ""))
        = ([{ callback := 7, arg := .null }], .returned)
      ∧ ((readyClient.run [.subscribe "job" "42" 7]).onSubscription 0
          (jobUpdate "42" (.num 0))).trace = [{ callback := 7, arg := .null }] := by
  decide

/-! ## Connection manager: promises settle once -/

theorem connectPromise_eq (c : Client) (j : Nat) :
    c.connectPromise j = (match c.calls.get? j with
      | some call => call.outer
      | none => .pending) := rfl

theorem modifyAt_get?_same {α : Type} (f : α → α) (k : Nat) (l : List α) :
    (modifyAt f k l).get? k = (l.get? k).map f := by
  induction l generalizing k with
  | nil => simp [modifyAt]
  | cons x xs ih =>
    cases k with
    | zero => simp [modifyAt]
    | succ k => simpa [modifyAt] using ih k

theorem modifyAt_get?_ne {α : Type} (f : α → α) (k j : Nat) (l : List α) (h : j ≠ k) :
    (modifyAt f k l).get? j = l.get? j := by
  induction l generalizing k j with
  | nil => simp [modifyAt]
  | cons x xs ih =>
    cases k with
    | zero =>
      cases j with
      | zero => exact absurd rfl h
      | succ j => simp [modifyAt]
    | succ k =>
      cases j with
      | zero => simp [modifyAt]
      | succ j => simpa [modifyAt] using ih k j (by omega)

theorem KeepsSettled.refl (c : Client) : KeepsSettled c c :=
  fun _ _ h _ => h

theorem KeepsSettled.trans {a b c : Client} (hab : KeepsSettled a b) (hbc : KeepsSettled b c) :
    KeepsSettled a c :=
  fun j v h hv => hbc j v (hab j v h hv) hv

theorem KeepsSettled.of_calls_eq {c d : Client} (h : d.calls = c.calls) : KeepsSettled c d := by
  intro j v hj _
  rw [connectPromise_eq, h]
  exact hj

theorem keepsSettled_modifyAt (c d : Client) (f : ConnectCall → ConnectCall) (k : Nat)
    (hf : ∀ x, x.outer ≠ .pending → (f x).outer = x.outer)
    (h : d.calls = modifyAt f k c.calls) : KeepsSettled c d := by
  intro j v hj hv
  rw [connectPromise_eq] at hj ⊢
  rw [h]
  by_cases hjk : j = k
  · subst hjk
    rw [modifyAt_get?_same]
    cases hget : c.calls.get? j with
    | none => rw [hget] at hj; exact absurd hj.symm hv
    | some call =>
      rw [hget] at hj
      simp only [Option.map_some']
      simp only at hj
      rw [hf call (by rw [hj]; exact hv)]
      exact hj
  · rw [modifyAt_get?_ne f k j c.calls hjk]
    exact hj

theorem settle_of_settled (p next : Settled) (h : p ≠ .pending) : p.settle next = p := by
  cases p with
  | pending => exact absurd rfl h
  | resolved v => rfl
  | rejected e => rfl

theorem keepsSettled_settleInner (c : Client) (k : Nat) (next : Settled) :
    KeepsSettled c (c.settleInner k next) := by
  have h1 : KeepsSettled c
      { c with calls := modifyAt (fun x => { x with inner := next }) k c.calls } :=
    keepsSettled_modifyAt c _ (fun x => { x with inner := next }) k (fun _ _ => rfl) rfl
  unfold Client.settleInner
  split
  · exact KeepsSettled.refl c
  · split
    · split
      · exact h1
      · exact h1.trans (keepsSettled_modifyAt _ _
          (fun x => { x with outer := x.outer.settle (.resolved .true_) }) k
          (fun x hx => settle_of_settled x.outer _ hx) rfl)
      · exact h1.trans (keepsSettled_modifyAt _ _
          (fun x => { x with outer := x.outer.settle (.rejected _) }) k
          (fun x hx => settle_of_settled x.outer _ hx) rfl)
    · exact KeepsSettled.refl c

theorem keepsSettled_append (c d : Client) (l : List ConnectCall)
    (h : d.calls = c.calls ++ l) : KeepsSettled c d := by
  intro j v hj hv
  rw [connectPromise_eq] at hj ⊢
  rw [h]
  cases hget : c.calls.get? j with
  | none => rw [hget] at hj; exact absurd hj.symm hv
  | some call =>
    rw [hget] at hj
    have hlt : j < c.calls.length := by
      by_contra hge
      have hnone : c.calls.get? j = none := by
        simp only [List.get?_eq_getElem?]
        exact List.getElem?_eq_none (by omega)
      rw [hnone] at hget
      exact absurd hget (by simp)
    have happ : (c.calls ++ l).get? j = some call := by
      simp only [List.get?_eq_getElem?] at hget ⊢
      rw [List.getElem?_append_left hlt]
      exact hget
    rw [happ]
    exact hj

theorem tween_calls (c c1 : Client) (address : JSVal) (event : String) (data : OutData)
    (h : c.tween address event data = some c1) : c1.calls = c.calls := by
  unfold Client.tween at h
  split at h
  · exact absurd h (by simp)
  · injection h with h
    rw [← h]
    rfl

theorem keepsSettled_connect (c : Client) (token : JSVal) :
    KeepsSettled c (c.connect token) := by
  unfold Client.connect
  simp only
  split <;> exact keepsSettled_append _ _ _ rfl

theorem keepsSettled_signIn (c : Client) (username password : String)
    (axios : Request Credentials → HttpResult LoginData) :
    KeepsSettled c (c.signIn username password axios).1 := by
  apply KeepsSettled.of_calls_eq
  unfold Client.signIn Client.post Client.logAdd
  simp only
  split <;> rename_i h
  · split at h
    · split at h
      · injection h with h1 h2
        rw [← h1]
        split <;> rfl
      · injection h with h1 h2
        exact absurd h2 (by simp)
    · injection h with h1 h2
      exact absurd h2 (by simp)
  · split at h
    · split at h
      · injection h with h1 h2
        exact absurd h2 (by simp)
      · injection h with h1 h2
        rw [← h1]
    · injection h with h1 h2
      exact absurd h2 (by simp)
  · split at h
    · split at h
      · injection h with h1 h2
        exact absurd h2 (by simp)
      · injection h with h1 h2
        exact absurd h2 (by simp)
    · injection h with h1 h2
      rw [← h1]

theorem keepsSettled_onTransportDown (c : Client) (s : Nat) :
    KeepsSettled c (c.onTransportDown s) := by
  apply KeepsSettled.of_calls_eq
  unfold Client.onTransportDown
  split <;> rfl

theorem keepsSettled_signOut (c : Client) : KeepsSettled c c.signOut.1 := by
  unfold Client.signOut
  simp only
  split
  · exact KeepsSettled.of_calls_eq rfl
  · split
    · exact KeepsSettled.trans (b := { c with store := .null, token := .null, user := none })
        (KeepsSettled.of_calls_eq rfl) (keepsSettled_onTransportDown _ _)
    · exact KeepsSettled.of_calls_eq rfl

theorem keepsSettled_subscribe (c : Client) (event id : String) (callback : Nat) :
    KeepsSettled c ((c.subscribe event id callback).getD c) := by
  apply KeepsSettled.of_calls_eq
  unfold Client.subscribe
  split <;> rename_i h
  · rfl
  · rename_i c1
    exact tween_calls c c1 _ _ _ h

theorem keepsSettled_unsubscribe (c : Client) (event id : String) :
    KeepsSettled c ((c.unsubscribe event id).getD c) := by
  apply KeepsSettled.of_calls_eq
  unfold Client.unsubscribe
  split <;> rename_i h
  · rfl
  · rename_i c1
    exact tween_calls c c1 _ _ _ h

theorem keepsSettled_onConnected (c : Client) (k : Nat) : KeepsSettled c (c.onConnected k) := by
  apply KeepsSettled.of_calls_eq
  unfold Client.onConnected
  split <;> rename_i h
  · rfl
  · rename_i c1
    exact tween_calls c c1 _ _ _ h

theorem keepsSettled_tokenHandler (c : Client) (k : Nat) (response : TokenResponse) :
    KeepsSettled c (c.tokenHandler k response).1 := by
  unfold Client.tokenHandler
  split
  · simp only
    split
    · exact KeepsSettled.of_calls_eq rfl
    · rename_i u _
      exact KeepsSettled.trans
        (b := { c with token := response.token, user := some u, dispatchers := c.dispatchers + 1 })
        (KeepsSettled.of_calls_eq rfl) (keepsSettled_settleInner _ _ _)
  · exact keepsSettled_settleInner _ _ _

theorem keepsSettled_emitToken (c : Client) (response : TokenResponse) (handlers : List Nat) :
    KeepsSettled c (c.emitToken response handlers) := by
  induction handlers generalizing c with
  | nil => exact KeepsSettled.refl c
  | cons k rest ih =>
    have hk := keepsSettled_tokenHandler c k response
    unfold Client.emitToken
    split <;> rename_i c1 h
    · rw [h] at hk
      exact hk
    · rw [h] at hk
      exact hk.trans (ih c1)

theorem keepsSettled_onDeadline (c : Client) (k : Nat) : KeepsSettled c (c.onDeadline k) := by
  unfold Client.onDeadline
  split
  · exact KeepsSettled.refl c
  · split <;> exact keepsSettled_settleInner _ _ _

theorem keepsSettled_step (c : Client) (e : Event) : KeepsSettled c (c.step e) := by
  cases e with
  | connect token => exact keepsSettled_connect c token
  | signIn username password result => exact keepsSettled_signIn c username password _
  | signOut => exact keepsSettled_signOut c
  | subscribe event id callback => exact keepsSettled_subscribe c event id callback
  | unsubscribe event id => exact keepsSettled_unsubscribe c event id
  | transportUp s => exact KeepsSettled.of_calls_eq rfl
  | transportDown s => exact keepsSettled_onTransportDown c s
  | connected s =>
    simp only [Client.step]
    split
    · exact keepsSettled_onConnected c s
    · exact KeepsSettled.refl c
  | token s response =>
    simp only [Client.step, Client.onToken]
    split
    · exact KeepsSettled.refl c
    · exact keepsSettled_emitToken c response _
  | subscription s betweeny => exact KeepsSettled.of_calls_eq rfl
  | deadline k => exact keepsSettled_onDeadline c k

theorem keepsSettled_run (c : Client) (events : List Event) : KeepsSettled c (c.run events) := by
  induction events generalizing c with
  | nil => exact KeepsSettled.refl c
  | cons e rest ih => exact (keepsSettled_step c e).trans (ih (c.step e))

/-! ## Connection manager: behaviour on concrete runs -/

/-- C2. After one handshake a subscribed callback is called once per matching
payload, but after a reconnect (a second `connected` signal and a second
successful `token` response on the same socket) the client holds three
dispatchers and the one callback is called three times for one payload; a
payload with another id still calls nothing. -/
theorem reconnect_multiplies_deliveries :
    readyClient.connectPromise 0 = .resolved .true_
      ∧ ((readyClient.run [.subscribe "job" "42" 7]).onSubscription 0
          (jobUpdate "42" halfDone)).trace = [{ callback := 7, arg := halfDone }]
      ∧ reconnectedClient.dispatchers = 3
      ∧ ((reconnectedClient.run [.subscribe "job" "42" 7]).onSubscription 0
          (jobUpdate "42" halfDone)).trace
          = [{ callback := 7, arg := halfDone }, { callback := 7, arg := halfDone },
             { callback := 7, arg := halfDone }]
      ∧ ((reconnectedClient.run [.subscribe "job" "42" 7]).onSubscription 0
          (jobUpdate "43" halfDone)).trace = [] := by
  decide

/-- C3. On a fresh client `connect({token: "abc"})` followed by the
`connected` signal sends an `auth` envelope whose token is `undefined`, and on
a client constructed with the token "old" it sends "old": the token given to
`connect` goes to the store only. -/
theorem connect_token_option_is_not_sent :
    ((Client.fresh .null).run [.connect (.str "abc"), .connected 0]).sockets.map Socket.outbox
        = [[{ event := "auth", message := { address := .null, data := .auth .undefined } }]]
      ∧ ((Client.new { version := none, baseUrl := none, timeOutAfter := none,
                       token := .str "old" } .null).run
            [.connect (.str "abc"), .connected 0]).sockets.map Socket.outbox
        = [[{ event := "auth", message := { address := .null, data := .auth (.str "old") } }]]
      ∧ ((Client.fresh .null).run [.connect (.str "abc"), .connected 0]).store = .str "abc" := by
  decide

/-- C4. On a fresh client over an empty store, `signIn` resolves with "tok",
and the `connect()` that follows rejects with the no-credential error; the
handshake it still starts carries `null`, not "tok". -/
theorem connect_after_signIn_finds_no_credential :
    ((Client.fresh .null).signIn "admin" "admin" fun _ => loginOk).2 = .resolved (.str "tok")
      ∧ ((Client.fresh .null).signIn "admin" "admin" fun _ => loginOk).1.token = .str "tok"
      ∧ ((Client.fresh .null).signIn "admin" "admin" fun _ => loginOk).1.store = .null
      ∧ ((Client.fresh .null).run
            [.signIn "admin" "admin" loginOk, .connect .undefined]).connectPromise 0
          = .rejected .noCredential
      ∧ ((Client.fresh .null).run
            [.signIn "admin" "admin" loginOk, .connect .undefined, .transportUp 0,
             .connected 0]).sockets.map Socket.outbox
          = [[{ event := "auth", message := { address := .null, data := .auth .null } }]] := by
  decide

/-- C5. On a fresh client over an empty store, `connect()` rejects with the
no-credential error and all the same opens a transport: a socket exists
afterwards where there was none. -/
theorem connect_without_credential_still_opens_socket :
    (Client.fresh .null).socket = none
      ∧ ((Client.fresh .null).connect .undefined).connectPromise 0 = .rejected .noCredential
      ∧ ((Client.fresh .null).connect .undefined).sockets.length = 1
      ∧ ((Client.fresh .null).connect .undefined).socket
          = some { connected := false, tokenHandlers := [], disconnectHandlers := 0,
                   relays := 0, outbox := [] } := by
  decide

/-- C6. On a ready client (socket present and connected) a further
`connect({token: "abc"})` resolves at once and all the same makes a second
socket, which replaces `this.socket`; when `connected` and `token` arrive on it
a second handshake goes out and further listeners are registered. -/
theorem connect_when_ready_reopens_transport :
    readyClient.status = true
      ∧ (readyClient.connect (.str "abc")).connectPromise 1 = .resolved .client
      ∧ readyClient.sockets.length = 1
      ∧ (readyClient.connect (.str "abc")).sockets.length = 2
      ∧ readyClient.connect (.str "abc") ≠ readyClient
      ∧ (readyClient.connect (.str "abc")).status = false
      ∧ (readyClient.run [.connect (.str "abc"), .transportUp 1, .connected 1,
            .token 1 handshakeOk]).sockets.map Socket.outbox
          = [[{ event := "auth", message := { address := .null, data := .auth .undefined } }],
             [{ event := "auth", message := { address := .null, data := .auth (.str "srv") } }]]
      ∧ readyClient.dispatchers = 1
      ∧ (readyClient.run [.connect (.str "abc"), .transportUp 1, .connected 1,
            .token 1 handshakeOk]).dispatchers = 2 := by
  decide

/-- C7 as stated fails: with the transport marked connected at the deadline and
no `token` response at all, the `connect` promise resolves instead of rejecting
with the timeout error. -/
theorem connect_resolves_at_deadline_when_transport_is_up :
    ((Client.fresh .null).run
        [.connect (.str "abc"), .transportUp 0, .connected 0, .deadline 0]).connectPromise 0
        = .resolved .true_
      ∧ ((Client.fresh .null).run
        [.connect (.str "abc"), .transportUp 0, .connected 0, .deadline 0]).connectPromise 0
        ≠ .rejected (.timedOut 60000) := by
  decide

theorem settleInner_of_pending (c : Client) (k : Nat) (call : ConnectCall) (next : Settled)
    (hcall : c.calls.get? k = some call) (hinner : call.inner = .pending)
    (hnext : next ≠ .pending) :
    (c.settleInner k next).connectPromise k
      = call.outer.settle (match next with
          | .resolved _ => .resolved .true_
          | other => other) := by
  unfold Client.settleInner
  rw [hcall]
  simp only [hinner]
  cases next with
  | pending => exact absurd rfl hnext
  | resolved v =>
    simp only [connectPromise_eq, Client.hookRelay, Client.onSocket, modifyAt_get?_same, hcall,
      Option.map_some']
  | rejected e =>
    simp only [connectPromise_eq, modifyAt_get?_same, hcall, Option.map_some']

/-- C7, amended. When the timer of a `connect` call fires while both of its
promises are still pending, the `connect` promise settles by the connected
flag of the current socket: it rejects with the timeout error when the flag is
false and resolves when it is true; and whatever happens later, a successful
`token` response included, the promise stays as the deadline left it. -/
theorem deadline_settles_by_connected_flag (c : Client) (k : Nat) (sock : Socket)
    (later : List Event) (hsock : c.socket = some sock) (hk : k < c.calls.length)
    (houter : c.connectPromise k = .pending) (hinner : c.socketPromise k = .pending) :
    ((c.step (.deadline k)).run later).connectPromise k
      = if sock.connected then .resolved .true_ else .rejected (.timedOut c.timeOutAfter) := by
  obtain ⟨call, hcall⟩ : ∃ call, c.calls.get? k = some call := by
    simp only [List.get?_eq_getElem?]
    exact ⟨c.calls[k], List.getElem?_eq_getElem hk⟩
  have hcallOuter : call.outer = .pending := by
    simpa only [connectPromise_eq, hcall] using houter
  have hcallInner : call.inner = .pending := by
    simpa only [Client.socketPromise, hcall] using hinner
  have hstep : (c.step (.deadline k)).connectPromise k
      = if sock.connected then .resolved .true_ else .rejected (.timedOut c.timeOutAfter) := by
    simp only [Client.step, Client.onDeadline, hsock]
    split
    · rw [settleInner_of_pending c k call _ hcall hcallInner (by simp), hcallOuter]
      rfl
    · rw [settleInner_of_pending c k call _ hcall hcallInner (by simp), hcallOuter]
      rfl
  refine keepsSettled_run _ later k _ hstep ?_
  split <;> simp

theorem deadline_settles_by_connected_flag_witness :
    ((Client.fresh .null).run [.connect (.str "abc")]).connectPromise 0 = .pending
      ∧ (((Client.fresh .null).run [.connect (.str "abc")]).run
          [.deadline 0, .transportUp 0, .connected 0, .token 0 handshakeOk]).connectPromise 0
          = .rejected (.timedOut 60000) :=
  ⟨by decide,
    deadline_settles_by_connected_flag ((Client.fresh .null).run [.connect (.str "abc")]) 0
      { connected := false, tokenHandlers := [], disconnectHandlers := 0, relays := 0,
        outbox := [] }
      [.transportUp 0, .connected 0, .token 0 handshakeOk]
      (by decide) (by decide) (by decide) (by decide)⟩

/-! ## Envelope and session identity: proofs -/

/-- C15. For every address and every data value, `new Betweeny(address,
data).toJSON()` is the record of the two fields `address` and `data`: `data` is
the value given, `address` is the value given, with `null` for an omitted
(`undefined`) address; in particular `null` comes back as `null`. -/
theorem betweeny_toJSON_round_trip {α : Type} (address : JSVal) (data : α) :
    (Betweeny.new address data).toJSON
        = { address := if address = JSVal.undefined then JSVal.null else address, data := data }
      ∧ (Betweeny.new JSVal.null data).toJSON = { address := JSVal.null, data := data }
      ∧ (Betweeny.new JSVal.undefined data).toJSON = { address := JSVal.null, data := data }
      ∧ (Betweeny.new (JSVal.str "peer") data).toJSON
          = { address := JSVal.str "peer", data := data } := by
  refine ⟨rfl, rfl, rfl, rfl⟩

/-- C13. An update that carries only a first name wipes the fields it does not
mention: email and last name become `undefined`, roles and libraries become
empty; the same happens to roles and libraries when `user.save` passes its
options (names and email) on to `update`. -/
theorem update_wipes_unmentioned_fields :
    User.new annIdentity
        = some { username := .str "ann", firstName := .str "Ann", lastName := .str "Lee",
                 email := .str "ann@example.org", roles := ["admin"], libraries := ["films"] }
      ∧ (User.new annIdentity).map (fun u => u.update firstNameOnly)
        = some { username := .str "ann", firstName := .str "Bea", lastName := .undefined,
                 email := .undefined, roles := [], libraries := [] }
      ∧ annClient.getUser
        = some { username := .str "ann", firstName := .str "Ann", lastName := .str "Lee",
                 email := .str "ann@example.org", roles := ["admin"], libraries := ["films"] }
      ∧ (annClient.userSave namesAndEmail .undefined saveAccepted).2 = .resolved
      ∧ (annClient.userSave namesAndEmail .undefined saveAccepted).1.getUser
        = some { username := .str "ann", firstName := .str "Bea", lastName := .str "Lee",
                 email := .str "bea@example.org", roles := [], libraries := [] } := by
  decide

/-- C14 as stated fails: an update whose options carry another username
replaces the username set at construction. -/
theorem update_with_username_renames :
    (User.new annIdentity).map User.username = some (.str "ann")
      ∧ (User.new annIdentity).map (fun u => (u.update renameToRoot).username)
          = some (.str "root") := by
  decide

/-- C14, amended. Construction fails exactly when the options carry no truthy
username and otherwise sets the username from the options; after
`update(options)` the username is the one in the options when they carry a
truthy one, and the username held before otherwise. -/
theorem username_set_at_construction_and_kept_unless_supplied (options : UserOptions)
    (u : User) (o : UserOptions) :
    (User.new options).map User.username
        = (if options.username.truthy then some options.username else none)
      ∧ (u.update o).username = (if o.username.truthy then o.username else u.username) := by
  refine ⟨?_, rfl⟩
  unfold User.new
  cases h : options.username.truthy <;> simp [User.update, User.blank, JSVal.or, h]

theorem settleInner_user (c : Client) (k : Nat) (next : Settled) :
    (c.settleInner k next).user = c.user := by
  unfold Client.settleInner
  split
  · rfl
  · split
    · split <;> rfl
    · rfl

theorem tween_user (c c1 : Client) (address : JSVal) (event : String) (data : OutData)
    (h : c.tween address event data = some c1) : c1.user = c.user := by
  unfold Client.tween at h
  split at h
  · exact absurd h (by simp)
  · injection h with h
    rw [← h]
    rfl

theorem userNew_isSome (options : UserOptions) :
    (User.new options).isSome = options.username.truthy := by
  unfold User.new
  cases options.username.truthy <;> rfl

theorem tokenHandler_user (c : Client) (k : Nat) (response : TokenResponse) :
    (c.tokenHandler k response).1.user.isSome
      = (c.user.isSome
          || (response.status == JSVal.num 200 && response.identity.username.truthy)) := by
  have hnew := userNew_isSome response.identity
  unfold Client.tokenHandler
  split <;> rename_i hs
  · simp only
    split <;> rename_i hu
    · rw [hu] at hnew
      simp [← hnew]
    · rw [hu] at hnew
      simp [settleInner_user, hs, ← hnew]
  · simp [settleInner_user, hs]

theorem tokenHandler_threw (c : Client) (k : Nat) (response : TokenResponse)
    (h : (c.tokenHandler k response).2 = .threw) :
    (response.status == JSVal.num 200 && response.identity.username.truthy) = false := by
  have hnew := userNew_isSome response.identity
  unfold Client.tokenHandler at h
  split at h
  · simp only at h
    split at h <;> rename_i hu
    · rw [hu] at hnew
      simp [← hnew]
    · exact absurd h (by simp)
  · exact absurd h (by simp)

theorem emitToken_user (c : Client) (response : TokenResponse) (handlers : List Nat) :
    (c.emitToken response handlers).user.isSome
      = (c.user.isSome
          || (response.status == JSVal.num 200 && response.identity.username.truthy
              && !handlers.isEmpty)) := by
  induction handlers generalizing c with
  | nil => simp [Client.emitToken]
  | cons k rest ih =>
    have hk := tokenHandler_user c k response
    unfold Client.emitToken
    split <;> rename_i c1 h
    · have hthrew := tokenHandler_threw c k response (by rw [h])
      rw [h] at hk
      simp only at hk
      rw [hk, hthrew]
      simp
    · rw [h] at hk
      simp only at hk
      rw [ih c1, hk]
      cases c.user.isSome <;>
        cases (response.status == JSVal.num 200 && response.identity.username.truthy) <;> simp

theorem signIn_user (c : Client) (username password : String) (result : HttpResult LoginData) :
    (c.signIn username password fun _ => result).1.user.isSome
      = (c.user.isSome || (Event.signIn username password result).buildsIdentity c) := by
  cases result with
  | failure e => simp [Client.signIn, Client.post, Client.logAdd, Event.buildsIdentity]
  | response r =>
    have hnew := userNew_isSome r.data.identity
    by_cases hs : r.status = 200
    · cases hu : User.new r.data.identity with
      | none =>
        rw [hu] at hnew
        simp [Client.signIn, Client.post, Client.logAdd, Event.buildsIdentity, hs, hu, ← hnew]
      | some u =>
        rw [hu] at hnew
        simp [Client.signIn, Client.post, Client.logAdd, Event.buildsIdentity, hs, hu, ← hnew]
    · simp [Client.signIn, Client.post, Client.logAdd, Event.buildsIdentity, hs]

theorem signOut_user (c : Client) : c.signOut.1.user = none := by
  unfold Client.signOut
  simp only
  split
  · rfl
  · split
    · unfold Client.onTransportDown
      split <;> rfl
    · rfl

theorem step_user (c : Client) (e : Event) :
    (c.step e).user.isSome
      = (decide (e ≠ Event.signOut) && (c.user.isSome || e.buildsIdentity c)) := by
  cases e with
  | connect token =>
    have h : (c.connect token).user = c.user := by
      unfold Client.connect
      simp only
      split <;> rfl
    simp [Client.step, h, Event.buildsIdentity]
  | signIn username password result =>
    simp only [Client.step, signIn_user]
    simp
  | signOut => simp [Client.step, signOut_user]
  | subscribe event id callback =>
    have h : ((c.subscribe event id callback).getD c).user = c.user := by
      unfold Client.subscribe
      split <;> rename_i h
      · rfl
      · rename_i c1
        exact tween_user c c1 _ _ _ h
    simp [Client.step, h, Event.buildsIdentity]
  | unsubscribe event id =>
    have h : ((c.unsubscribe event id).getD c).user = c.user := by
      unfold Client.unsubscribe
      split <;> rename_i h
      · rfl
      · rename_i c1
        exact tween_user c c1 _ _ _ h
    simp [Client.step, h, Event.buildsIdentity]
  | transportUp s => simp [Client.step, Client.onTransportUp, Event.buildsIdentity]
  | transportDown s =>
    have h : (c.onTransportDown s).user = c.user := by
      unfold Client.onTransportDown
      split <;> rfl
    simp [Client.step, h, Event.buildsIdentity]
  | connected s =>
    have h : (if s < c.sockets.length then c.onConnected s else c).user = c.user := by
      split
      · unfold Client.onConnected
        split <;> rename_i h
        · rfl
        · rename_i c1
          exact tween_user c c1 _ _ _ h
      · rfl
    simp [Client.step, h, Event.buildsIdentity]
  | token s response =>
    simp only [Client.step, Client.onToken, Event.buildsIdentity]
    cases c.sockets.get? s with
    | none => simp
    | some sock =>
      simp only [emitToken_user]
      simp
  | subscription s betweeny => simp [Client.step, Client.onSubscription, Event.buildsIdentity]
  | deadline k =>
    have h : (c.onDeadline k).user = c.user := by
      unfold Client.onDeadline
      split
      · rfl
      · split <;> exact settleInner_user _ _ _
    simp [Client.step, h, Event.buildsIdentity]

theorem buildsIdentity_ne_signOut (c : Client) (e : Event) (h : e.buildsIdentity c = true) :
    e ≠ Event.signOut := by
  intro he
  subst he
  simp [Event.buildsIdentity] at h

theorem run_cons (c : Client) (e : Event) (rest : List Event) :
    c.run (e :: rest) = (c.step e).run rest := rfl

theorem run_user (c : Client) (events : List Event) :
    (c.run events).user.isSome = true
      ↔ (c.user.isSome = true ∧ Event.signOut ∉ events)
        ∨ ∃ pre e post, events = pre ++ e :: post ∧ e.buildsIdentity (c.run pre) = true
            ∧ Event.signOut ∉ post := by
  induction events generalizing c with
  | nil =>
    constructor
    · intro h
      exact Or.inl ⟨h, by simp⟩
    · rintro (⟨h, _⟩ | ⟨pre, e, post, hsplit, _, _⟩)
      · exact h
      · exact absurd hsplit (by simp)
  | cons e rest ih =>
    rw [run_cons, ih (c.step e)]
    have hstep := step_user c e
    constructor
    · rintro (⟨hheld, hrest⟩ | ⟨pre, e1, post, hsplit, hbuilds, hpost⟩)
      · rw [hstep] at hheld
        simp only [Bool.and_eq_true, Bool.or_eq_true, decide_eq_true_eq] at hheld
        obtain ⟨hne, hheld | hbuilds⟩ := hheld
        · refine Or.inl ⟨hheld, ?_⟩
          intro hmem
          rcases List.mem_cons.1 hmem with h | h
          · exact hne h.symm
          · exact hrest h
        · exact Or.inr ⟨[], e, rest, rfl, hbuilds, hrest⟩
      · refine Or.inr ⟨e :: pre, e1, post, ?_, ?_, hpost⟩
        · rw [hsplit]
          rfl
        · rw [run_cons]
          exact hbuilds
    · rintro (⟨hheld, hnot⟩ | ⟨pre, e1, post, hsplit, hbuilds, hpost⟩)
      · have hne : e ≠ Event.signOut := fun h => hnot (by rw [h]; exact List.mem_cons_self _ _)
        refine Or.inl ⟨?_, fun h => hnot (List.mem_cons_of_mem _ h)⟩
        rw [hstep]
        simp [hne, hheld]
      · cases pre with
        | nil =>
          simp only [List.nil_append, List.cons.injEq] at hsplit
          obtain ⟨he, hrest⟩ := hsplit
          subst he
          subst hrest
          have hne := buildsIdentity_ne_signOut c e hbuilds
          refine Or.inl ⟨?_, hpost⟩
          rw [hstep]
          simp only [Client.run, List.foldl_nil] at hbuilds
          simp [hne, hbuilds]
        | cons e0 pre1 =>
          simp only [List.cons_append, List.cons.injEq] at hsplit
          obtain ⟨he, hrest⟩ := hsplit
          subst he
          exact Or.inr ⟨pre1, e1, post, hrest, by rw [run_cons] at hbuilds; exact hbuilds, hpost⟩

/-- C11 as stated fails, both ways round: after a `signIn` alone the getter
returns a user although no `token` response was ever received, and after a
handshake followed by a transport `disconnect` the getter still returns the
user. -/
theorem identity_without_handshake_and_after_disconnect :
    ((Client.fresh .null).run [.signIn "admin" "admin" loginOk]).getUser.isSome = true
      ∧ handshakeSinceReset [.signIn "admin" "admin" loginOk] = false
      ∧ (readyClient.run [.transportDown 0]).getUser.isSome = true
      ∧ handshakeSinceReset
          [.connect (.str "abc"), .transportUp 0, .connected 0, .token 0 handshakeOk,
           .transportDown 0] = false := by
  decide

/-- C11, amended. On a client run from construction, the `user` getter returns
a user exactly when some event set `_user` (a `signIn` answered with status 200
and a username, or a `token` response with status 200 and a username reaching
a `token` listener) and no `signOut` came after it; a transport `disconnect`
does not clear it. -/
theorem identity_iff_built_since_last_signOut (options : ClientOptions) (store : JSVal)
    (events : List Event) :
    ((Client.new options store).run events).getUser.isSome = true
      ↔ ∃ pre e post, events = pre ++ e :: post
          ∧ e.buildsIdentity ((Client.new options store).run pre) = true
          ∧ Event.signOut ∉ post := by
  have hget : ∀ c : Client, c.getUser = c.user := by
    intro c
    unfold Client.getUser
    cases c.user <;> rfl
  rw [hget, run_user]
  constructor
  · rintro (⟨h, _⟩ | h)
    · exact absurd h (by simp [Client.new])
    · exact h
  · exact Or.inr

/-! ## Query surface: proofs -/

/-- C12. With both fields present and `overwrite` equal to `false`,
`folders.put` throws "overwrite is required" and makes no facade call, where
one `PUT` is claimed; likewise for an empty `pathToFolder`.  With both fields
truthy it makes the one `PUT` to `/library/{id}/folders`. -/
theorem foldersPut_rejects_present_falsy_fields :
    readyClient.foldersPut "7" { pathToFolder := .str "/media", overwrite := .bool false }
        putAccepted
        = (readyClient, .threw "API Error: overwrite is required")
      ∧ readyClient.foldersPut "7" { pathToFolder := .str "", overwrite := .bool true }
        putAccepted
        = (readyClient, .threw "API Error: pathToFolder is required")
      ∧ readyClient.foldersPut "7" { pathToFolder := .str "/media", overwrite := .undefined }
        putAccepted
        = (readyClient, .threw "API Error: overwrite is required")
      ∧ readyClient.foldersPut "7" { pathToFolder := .str "/media", overwrite := .bool true }
        putAccepted
        = ((readyClient.put "/library/7/folders"
              (some { pathToFolder := .str "/media", overwrite := .bool true }) putAccepted).1,
            .settled (.resolved ())) := by
  decide

/-! ## Request facade: proofs -/

/-- C10. Each of `get`, `post`, `put` and `delete` hands the transport one
request and settles by its answer: a response with status exactly 200 resolves
with `response.data`, a response with any other status rejects with the whole
response, and a transport failure rejects with that error. -/
theorem facade_verbs_settle_by_status {α β : Type} (c : Client) (uri : String)
    (params data : Option β) (axios : Request β → HttpResult α) :
    (c.get uri params axios).2
        = facadeContract (axios
            { method := "GET", url := c.version ++ uri, params := params, body := none,
              contentType := "application/json",
              authorization := "Bearer " ++ c.token.toJSString })
      ∧ (c.post uri data axios).2
        = facadeContract (axios
            { method := "POST", url := c.version ++ uri, params := none, body := data,
              contentType := "application/json",
              authorization := "Bearer " ++ c.token.toJSString })
      ∧ (c.put uri data axios).2
        = facadeContract (axios
            { method := "PUT", url := c.version ++ uri, params := none, body := data,
              contentType := "application/json",
              authorization := "Bearer " ++ c.token.toJSString })
      ∧ (c.delete uri axios).2
        = facadeContract (axios
            { method := "DELETE", url := c.version ++ uri, params := none, body := none,
              contentType := "application/json",
              authorization := "Bearer " ++ c.token.toJSString }) := by
  refine ⟨?_, ?_, ?_, ?_⟩
  · simp only [Client.get, Client.logAdd]
    split <;> rename_i h <;> rw [h] <;> simp only [facadeContract]
    split <;> rfl
  · simp only [Client.post, Client.logAdd]
    split <;> rename_i h <;> rw [h] <;> simp only [facadeContract]
    split <;> rfl
  · simp only [Client.put, Client.logAdd]
    split <;> rename_i h <;> rw [h] <;> simp only [facadeContract]
    split <;> rfl
  · simp only [Client.delete, Client.logAdd]
    split <;> rename_i h <;> rw [h] <;> simp only [facadeContract]
    split <;> rfl

end WrangleBot
